import Mathlib

/-!
Verification of the `UniqueMoleculeContainer` class of `scrubber/common.py`.

The container stores records (RDKit molecules in the source) keyed by a
canonical SMILES string.  The canonicalization function `mol2smi` is an
external collaborator (it wraps the chemistry toolkit), so every operation
that needs it takes a function parameter `mol2smi : M → Bool → String`
(record, chirality flag ↦ canonical key).  Python's insertion-ordered
`dict` is embedded as an association list `List (String × M)` whose keys
are kept unique by the operations, together with small functions mirroring
the dict primitives used by the source (`key in d`, `d[k] = v`, `del d[k]`,
`list(d.keys())`, `d[k]`).
-/

namespace Scrubber

/-- Exceptions raised by the container, abstracted to what their message
carries: `keyErr` is a `KeyError` holding the missing key, `idxErrPlain` is
a bare `IndexError` whose message reports neither range nor index (the one
Python raises for a bad list index), `idxErrEmpty` is the `IndexError`
with the fixed message "Empty container." raised by `pop` on an empty
container, `idxErrRange` is the `IndexError` from `pop` whose message
reports the container size and the offending index, and `typeErr` is a
`TypeError`. -/
inductive Err where
  | typeErr
  | keyErr (key : String)
  | idxErrPlain
  | idxErrEmpty
  | idxErrRange (size : Nat) (index : Int)
deriving DecidableEq

/-- Argument of `__getitem__`: a SMILES string or an integer index. -/
inductive PyKey where
  | str (s : String)
  | int (i : Int)
deriving DecidableEq

/-- Keys of a Python dict embedded as an association list:
`list(d.keys())`. -/
def dictKeys {M : Type} (d : List (String × M)) : List String :=
  d.map Prod.fst

/-- Lookup `d[k]` (as an `Option`): the value stored under `k`. -/
def dictGet? {M : Type} : List (String × M) → String → Option M
  | [], _ => none
  | p :: rest, k => if p.1 = k then some p.2 else dictGet? rest k

/-- Assignment `d[k] = v`: overwrite in place if the key is present
(keeping its position, as a Python dict does), otherwise append. -/
def dictInsert {M : Type} (d : List (String × M)) (k : String) (v : M) :
    List (String × M) :=
  if (dictKeys d).contains k then
    d.map (fun p => if p.1 = k then (k, v) else p)
  else
    d ++ [(k, v)]

/-- Deletion `del d[k]` (on a dict with unique keys): drop the entry with
key `k`. -/
def dictDel {M : Type} (d : List (String × M)) (k : String) :
    List (String × M) :=
  d.filter (fun p => !(p.1 == k))

/-- Python list indexing `l[i]`: a negative index counts from the end;
`none` corresponds to the `IndexError` raised when `i` is outside
`[-len(l), len(l))`. -/
def pyIdx {α : Type} (l : List α) (i : Int) : Option α :=
  let j : Int := if i < 0 then i + l.length else i
  if 0 ≤ j then l.get? j.toNat else none

/-- The state of a `UniqueMoleculeContainer`: the insertion-ordered
key→record dict `__data`, the public `sealed` flag, the fixed
`__chirality` flag (`not ignore_chirality` at construction), and the
iteration counter `__index` written by `__iter__`/`__next__`. -/
structure UniqueMoleculeContainer (M : Type) where
  data : List (String × M)
  sealed : Bool
  chirality : Bool
  idx : Int
deriving DecidableEq

namespace UniqueMoleculeContainer

/-- `UniqueMoleculeContainer(None, sealed, ignore_chirality)`: the empty
container. -/
def newEmpty (M : Type) (sealedArg ignore_chirality : Bool) :
    UniqueMoleculeContainer M :=
  ⟨[], sealedArg, !ignore_chirality, -1⟩

/-- `list(self.__data.keys())`, the `keys` method. -/
def keys {M : Type} (c : UniqueMoleculeContainer M) : List String :=
  dictKeys c.data

/-- `add(mol, replace)`: compute the key with `mol2smi`; if present and
not replacing, return `False` with no mutation; otherwise store the
record, break the seal and return `True`. -/
def add {M : Type} (mol2smi : M → Bool → String)
    (c : UniqueMoleculeContainer M) (mol : M) (replace : Bool) :
    Bool × UniqueMoleculeContainer M :=
  let key := mol2smi mol c.chirality
  if (dictKeys c.data).contains key && !replace then
    (false, c)
  else
    (true, { c with data := dictInsert c.data key mol, sealed := false })

/-- `remove_smiles(smiles)`: `del self.__data[smiles]` succeeds exactly
when the key is present, in which case the seal is broken and `True`
returned; the `KeyError` of an absent key is swallowed and `False`
returned with no mutation. -/
def remove_smiles {M : Type} (c : UniqueMoleculeContainer M)
    (smiles : String) : Bool × UniqueMoleculeContainer M :=
  if (dictKeys c.data).contains smiles then
    (true, { c with data := dictDel c.data smiles, sealed := false })
  else
    (false, c)

/-- `remove_mol(mol)`: canonicalize, then delegate to `remove_smiles`. -/
def remove_mol {M : Type} (mol2smi : M → Bool → String)
    (c : UniqueMoleculeContainer M) (mol : M) :
    Bool × UniqueMoleculeContainer M :=
  remove_smiles c (mol2smi mol c.chirality)

/-- Loop body of `remove_mols`: the source initializes `success = False`
and, on a failed removal, assigns `success = False` again; it never
assigns `True`. -/
def rmStep {M : Type} (mol2smi : M → Bool → String)
    (acc : Bool × UniqueMoleculeContainer M) (mol : M) :
    Bool × UniqueMoleculeContainer M :=
  let r := remove_mol mol2smi acc.2 mol
  (if !r.1 then false else acc.1, r.2)

/-- `remove_mols(mol_list)`: `True` for the empty list, otherwise the
`success` flag produced by folding `rmStep` from `False`. -/
def remove_mols {M : Type} (mol2smi : M → Bool → String)
    (c : UniqueMoleculeContainer M) (mols : List M) :
    Bool × UniqueMoleculeContainer M :=
  match mols with
  | [] => (true, c)
  | _ => mols.foldl (rmStep mol2smi) (false, c)

/-- The list comprehension `[keys_list[i] for i in indices_list]`:
evaluated left to right, raising the plain `IndexError` at the first
invalid index; no other state is touched. -/
def indexComp {α : Type} (l : List α) : List Int → Except Err (List α)
  | [] => .ok []
  | i :: rest =>
    match pyIdx l i with
    | some a => (indexComp l rest).map (fun tl => a :: tl)
    | none => .error .idxErrPlain

/-- `remove_from_indices(indices_list)`: first resolve every index
against the key order at call time (the comprehension, which raises
before any removal on a bad index), then remove each resolved SMILES.
The second component is the container after the call. -/
def remove_from_indices {M : Type} (c : UniqueMoleculeContainer M)
    (idxs : List Int) :
    Except Err (List String) × UniqueMoleculeContainer M :=
  match indexComp (dictKeys c.data) idxs with
  | .error e => (.error e, c)
  | .ok smi_list =>
    (.ok smi_list, smi_list.foldl (fun s smi => (remove_smiles s smi).2) c)

/-- `__getitem__(key)`: a string is looked up in the dict (`KeyError` if
absent); an integer is resolved against the current key order (plain
`IndexError` if invalid) and the record at that key returned. -/
def getItem {M : Type} (c : UniqueMoleculeContainer M) :
    PyKey → Except Err M
  | .str s =>
    match dictGet? c.data s with
    | some m => .ok m
    | none => .error (.keyErr s)
  | .int i =>
    match pyIdx (dictKeys c.data) i with
    | some k =>
      match dictGet? c.data k with
      | some m => .ok m
      | none => .error (.keyErr k)
    | none => .error .idxErrPlain

/-- `get(key, default)`: the source runs `self.__getitem__(key)` inside
`try` WITHOUT returning its result, so when the lookup succeeds the
method falls through and returns Python `None` (modelled as `none`); when
the lookup raises, the bare `except` returns `default`. -/
def get {M : Type} (c : UniqueMoleculeContainer M) (key : PyKey)
    (default : Option M) : Option M :=
  match getItem c key with
  | .ok _ => none
  | .error _ => default

/-- `pop(index)`: resolve the index against the current key order; on
success delete that entry and return its record, leaving `sealed`
untouched; on an `IndexError` re-raise with the "Empty container."
message when the container is empty, and otherwise with the message
reporting the size and the offending index. -/
def pop {M : Type} (c : UniqueMoleculeContainer M) (index : Int) :
    Except Err (M × UniqueMoleculeContainer M) :=
  match pyIdx (dictKeys c.data) index with
  | some key =>
    match dictGet? c.data key with
    | some mol => .ok (mol, { c with data := dictDel c.data key })
    | none => .error (.keyErr key)
  | none =>
    if c.data.length = 0 then .error .idxErrEmpty
    else .error (.idxErrRange c.data.length index)

/-- `UniqueMoleculeContainer(other, sealed, ignore_chirality)`: the dict
is shallow-copied from `other`, while `sealed` and the chirality flag
come from the parameters (the source sets `self.__chirality =
not ignore_chirality` before inspecting `argument`, and never copies the
source container's flag). -/
def new_from_other {M : Type} (other : UniqueMoleculeContainer M)
    (sealedArg ignore_chirality : Bool) : UniqueMoleculeContainer M :=
  ⟨other.data, sealedArg, !ignore_chirality, -1⟩

/-- `UniqueMoleculeContainer(mol_list, sealed, ignore_chirality)`: add
each record in order, forcing `sealed = False` after every `add` call. -/
def new_from_list {M : Type} (mol2smi : M → Bool → String) (mols : List M)
    (sealedArg ignore_chirality : Bool) : UniqueMoleculeContainer M :=
  mols.foldl (fun c m => { (add mol2smi c m false).2 with sealed := false })
    (newEmpty M sealedArg ignore_chirality)

/-- `copy()`: `UniqueMoleculeContainer(self)` with the constructor's
default arguments (`sealed=True`, `ignore_chirality=False`). -/
def copy {M : Type} (c : UniqueMoleculeContainer M) :
    UniqueMoleculeContainer M :=
  new_from_other c true false

/-- `__contains__(mol)`: canonicalize and test key membership. -/
def containsMol {M : Type} (mol2smi : M → Bool → String)
    (c : UniqueMoleculeContainer M) (mol : M) : Bool :=
  (dictKeys c.data).contains (mol2smi mol c.chirality)

/-- `__eq__(other)`: `set(self.__data.keys()) == set(other.__data.keys())`,
i.e. mutual membership of the two key lists. -/
def eqc {M : Type} (a b : UniqueMoleculeContainer M) : Bool :=
  (dictKeys a.data).all (fun k => (dictKeys b.data).contains k) &&
  (dictKeys b.data).all (fun k => (dictKeys a.data).contains k)

/-- `__iter__()`: reset the position counter stored on the container and
return the container itself. -/
def iterInit {M : Type} (c : UniqueMoleculeContainer M) :
    UniqueMoleculeContainer M :=
  { c with idx := -1 }

/-- `__next__()`: advance the counter stored on the container; `none`
in the first component is `StopIteration`, otherwise the record at the
counter's position in the current key order is produced. -/
def next {M : Type} (c : UniqueMoleculeContainer M) :
    Option M × UniqueMoleculeContainer M :=
  let c' : UniqueMoleculeContainer M := { c with idx := c.idx + 1 }
  if c'.idx > (c'.data.length : Int) - 1 then
    (none, c')
  else
    match pyIdx (dictKeys c'.data) c'.idx with
    | some key => (dictGet? c'.data key, c')
    | none => (none, c')

/-- Loop body of `__add__`: for a key of `other` not yet in `new`, the
source sets `self.sealed = False` and inserts into `new.__data`.  The
accumulator is the pair `(new, self)`. -/
def addStep {M : Type}
    (acc : UniqueMoleculeContainer M × UniqueMoleculeContainer M)
    (kv : String × M) :
    UniqueMoleculeContainer M × UniqueMoleculeContainer M :=
  if !((dictKeys acc.1.data).contains kv.1) then
    ({ acc.1 with data := dictInsert acc.1.data kv.1 kv.2 },
     { acc.2 with sealed := false })
  else acc

/-- `__add__(other)`: `new = UniqueMoleculeContainer(self)` (constructor
defaults), then the loop over `other.__data.items()`.  The result is
`(new, self-after-the-call)`. -/
def hAdd {M : Type} (slf other : UniqueMoleculeContainer M) :
    UniqueMoleculeContainer M × UniqueMoleculeContainer M :=
  other.data.foldl addStep (new_from_other slf true false, slf)

end UniqueMoleculeContainer

/-- Concrete canonicalization collaborator used by witnesses: records are
strings, and the key prefixes the record with the chirality mode, making
the function deterministic and injective for each mode while the two
modes disagree on every record. -/
def canonS (m : String) (chir : Bool) : String :=
  (if chir then "iso:" else "flat:") ++ m

/-- A one-record container whose single key is the chirality-on key of
the record "benzene". -/
def cOne : UniqueMoleculeContainer String :=
  ⟨[("iso:benzene", "B-record")], true, true, -1⟩

/-- A container holding one record, keyed with chirality off (as built by
a constructor call with `ignore_chirality=True`). -/
def srcFlat : UniqueMoleculeContainer String :=
  ⟨[("flat:water", "W-record")], true, false, -1⟩

/-- A one-record container used as the right operand of `+`. -/
def cRight : UniqueMoleculeContainer String :=
  ⟨[("iso:b", "b-record")], true, true, -1⟩

/-- A sealed three-record container. -/
def cThree : UniqueMoleculeContainer String :=
  ⟨[("iso:a", "a-rec"), ("iso:b", "b-rec"), ("iso:c", "c-rec")], true, true, -1⟩

/-- Three keys in one insertion order. -/
def cOrderA : UniqueMoleculeContainer String :=
  ⟨[("k1", "r1"), ("k2", "r2"), ("k3", "r3")], true, true, -1⟩

/-- The same three keys in another insertion order, with different record
values (and even a different seal state). -/
def cOrderB : UniqueMoleculeContainer String :=
  ⟨[("k3", "x3"), ("k1", "x1"), ("k2", "x2")], false, true, -1⟩

/-- The observer operations of the seal claim: `get` calls, membership
tests, and removal attempts (which, on the states considered there, all
fail). -/
inductive ObsOp (M : Type) where
  | getOp (key : PyKey) (default : Option M)
  | memOp (mol : M)
  | rmSmilesOp (s : String)
  | rmMolOp (mol : M)
  | rmMolsOp (mols : List M)

/-- State transition of one observer operation: the source's `get` and
`__contains__` only read the container (they write no attribute), so they
leave the state as is; the removal operations thread the state returned
by the corresponding container method. -/
def applyObs {M : Type} (mol2smi : M → Bool → String)
    (c : UniqueMoleculeContainer M) : ObsOp M → UniqueMoleculeContainer M
  | .getOp _ _ => c
  | .memOp _ => c
  | .rmSmilesOp s => (UniqueMoleculeContainer.remove_smiles c s).2
  | .rmMolOp m => (UniqueMoleculeContainer.remove_mol mol2smi c m).2
  | .rmMolsOp ms => (UniqueMoleculeContainer.remove_mols mol2smi c ms).2

/-- Run a sequence of observer operations. -/
def applyObsList {M : Type} (mol2smi : M → Bool → String)
    (ops : List (ObsOp M)) (c : UniqueMoleculeContainer M) :
    UniqueMoleculeContainer M :=
  ops.foldl (applyObs mol2smi) c

/-- Membership in a `contains` test, for lawful `BEq` types. -/
lemma contains_iff {α : Type} [BEq α] [LawfulBEq α] {l : List α} {a : α} :
    l.contains a = true ↔ a ∈ l :=
  List.elem_iff

/-- A `contains` test that comes back `false` means non-membership. -/
lemma contains_eq_false {α : Type} [BEq α] [LawfulBEq α] {l : List α}
    {a : α} (h : l.contains a = false) : a ∉ l :=
  fun hm => by rw [contains_iff.mpr hm] at h; cases h

/-- Keys of a concatenation of dicts. -/
lemma dictKeys_append {M : Type} (a b : List (String × M)) :
    dictKeys (a ++ b) = dictKeys a ++ dictKeys b :=
  List.map_append _ a b

/-- Inserting an absent key appends the new entry. -/
lemma dictInsert_not_contains {M : Type} {d : List (String × M)}
    {k : String} {v : M} (h : (dictKeys d).contains k = false) :
    dictInsert d k v = d ++ [(k, v)] := by
  unfold dictInsert
  rw [h]
  rfl

/-- Effect of the `__add__` loop on the `self` component of the
accumulator: `self`'s entries, chirality and iteration counter are left
alone, and `self.sealed` survives exactly when every key of the iterated
list is already a key of the initial `new`. -/
lemma addStep_fold_snd {M : Type} (l : List (String × M))
    (nw sl : UniqueMoleculeContainer M) :
    (l.foldl UniqueMoleculeContainer.addStep (nw, sl)).2.data = sl.data ∧
    (l.foldl UniqueMoleculeContainer.addStep (nw, sl)).2.chirality = sl.chirality ∧
    (l.foldl UniqueMoleculeContainer.addStep (nw, sl)).2.idx = sl.idx ∧
    (l.foldl UniqueMoleculeContainer.addStep (nw, sl)).2.sealed =
      (sl.sealed && l.all (fun kv => (dictKeys nw.data).contains kv.1)) := by
  induction l generalizing nw sl with
  | nil => simp
  | cons kv rest ih =>
    rw [List.foldl_cons]
    by_cases hc : (dictKeys nw.data).contains kv.1 = true
    · have hstep : UniqueMoleculeContainer.addStep (nw, sl) kv = (nw, sl) := by
        unfold UniqueMoleculeContainer.addStep
        rw [hc]
        rfl
      rw [hstep]
      obtain ⟨h1, h2, h3, h4⟩ := ih nw sl
      refine ⟨h1, h2, h3, ?_⟩
      rw [h4, List.all_cons, hc, Bool.true_and]
    · have hc' : (dictKeys nw.data).contains kv.1 = false :=
        Bool.eq_false_iff.mpr hc
      have hstep : UniqueMoleculeContainer.addStep (nw, sl) kv =
          ({ nw with data := dictInsert nw.data kv.1 kv.2 },
           { sl with sealed := false }) := by
        unfold UniqueMoleculeContainer.addStep
        rw [hc']
        rfl
      rw [hstep]
      obtain ⟨h1, h2, h3, h4⟩ := ih { nw with data := dictInsert nw.data kv.1 kv.2 }
        { sl with sealed := false }
      refine ⟨h1, h2, h3, ?_⟩
      rw [h4, List.all_cons, hc']
      simp

/-- C3 (amended): `A + B` builds its result on a copy, so `A`'s entries,
chirality mode and iteration counter are unchanged (and `B` is never
written at all); but the source executes `self.sealed = False` whenever
it inserts a key of `B` absent from the copy, so `A`'s sealed flag
survives the call exactly when `A` was sealed and every key of `B` is
already a key of `A`. -/
theorem add_op_effect_on_left {M : Type} (A B : UniqueMoleculeContainer M) :
    (UniqueMoleculeContainer.hAdd A B).2.data = A.data ∧
    (UniqueMoleculeContainer.hAdd A B).2.chirality = A.chirality ∧
    (UniqueMoleculeContainer.hAdd A B).2.idx = A.idx ∧
    (UniqueMoleculeContainer.hAdd A B).2.sealed =
      (A.sealed && B.data.all (fun kv => (dictKeys A.data).contains kv.1)) :=
  addStep_fold_snd B.data (UniqueMoleculeContainer.new_from_other A true false) A

/-- C3 (counterexample): on a sealed empty left operand and a non-empty
right operand, computing `A + B` flips `A.sealed` from `true` to `false`,
so the union operator is not non-mutating as claimed. -/
theorem add_op_mutates_left_seal :
    (UniqueMoleculeContainer.newEmpty String true false).sealed = true ∧
    (UniqueMoleculeContainer.hAdd
        (UniqueMoleculeContainer.newEmpty String true false) cRight).2.sealed
      = false :=
  ⟨rfl, rfl⟩

/-- C4 (amended): constructing from another container shallow-copies the
key→record entries (an independent list value in this embedding), but the
chirality mode is taken from the constructor's `ignore_chirality`
parameter — `copy()` uses the default, i.e. chirality on — and never from
the source container; consequently every key computed by `copy()` (here,
a membership test) uses chirality mode `true` whatever the source's mode
was. -/
theorem new_from_other_spec {M : Type} (src : UniqueMoleculeContainer M)
    (sl ig : Bool) :
    (UniqueMoleculeContainer.new_from_other src sl ig).data = src.data ∧
    (UniqueMoleculeContainer.new_from_other src sl ig).chirality = !ig ∧
    UniqueMoleculeContainer.copy src =
      UniqueMoleculeContainer.new_from_other src true false ∧
    (∀ (mol2smi : M → Bool → String) (mol : M),
      UniqueMoleculeContainer.containsMol mol2smi
          (UniqueMoleculeContainer.copy src) mol =
        (dictKeys src.data).contains (mol2smi mol true)) :=
  ⟨rfl, rfl, rfl, fun _ _ => rfl⟩

/-- C4 (counterexample): the copy of a container whose chirality mode is
off has chirality mode on, so the copy does not have "the same chirality
mode as the source"; concretely the record "water" is a member of the
source but its membership test on the copy, which canonicalizes with
chirality on, fails even though the entries are identical. -/
theorem copy_changes_chirality_mode :
    srcFlat.chirality = false ∧
    (UniqueMoleculeContainer.copy srcFlat).chirality = true ∧
    (UniqueMoleculeContainer.copy srcFlat).data = srcFlat.data ∧
    UniqueMoleculeContainer.containsMol canonS srcFlat "water" = true ∧
    UniqueMoleculeContainer.containsMol canonS
      (UniqueMoleculeContainer.copy srcFlat) "water" = false :=
  ⟨rfl, rfl, rfl, rfl, rfl⟩

/-- C8 (amended): adding a record whose canonical key is not yet present
returns `true`, then a second identical `add` returns `false`, and the
size grows by exactly one over the two calls. -/
theorem add_twice_fresh {M : Type} (mol2smi : M → Bool → String)
    (c : UniqueMoleculeContainer M) (mol : M)
    (h : (dictKeys c.data).contains (mol2smi mol c.chirality) = false) :
    (UniqueMoleculeContainer.add mol2smi c mol false).1 = true ∧
    (UniqueMoleculeContainer.add mol2smi
        (UniqueMoleculeContainer.add mol2smi c mol false).2 mol false).1 = false ∧
    (UniqueMoleculeContainer.add mol2smi
        (UniqueMoleculeContainer.add mol2smi c mol false).2 mol false).2.data.length
      = c.data.length + 1 := by
  have h1 : UniqueMoleculeContainer.add mol2smi c mol false =
      (true, { c with
                data := c.data ++ [(mol2smi mol c.chirality, mol)],
                sealed := false }) := by
    unfold UniqueMoleculeContainer.add
    simp [h, dictInsert_not_contains h]
    exact contains_eq_false h
  have hmem : (dictKeys (c.data ++ [(mol2smi mol c.chirality, mol)])).contains
      (mol2smi mol c.chirality) = true := by
    apply contains_iff.mpr
    unfold dictKeys
    simp
  have h2 : UniqueMoleculeContainer.add mol2smi
      { c with data := c.data ++ [(mol2smi mol c.chirality, mol)], sealed := false }
      mol false =
      (false, { c with
                 data := c.data ++ [(mol2smi mol c.chirality, mol)],
                 sealed := false }) := by
    unfold UniqueMoleculeContainer.add
    simp [hmem, contains_iff.mp hmem]
  rw [h1, h2]
  simp

/-- C8 (counterexample): on a container that already holds the record's
canonical key, the first of the two `add` calls already returns `false`,
not `true` as the claim states for an arbitrary container. -/
theorem add_twice_on_present_counterexample :
    (UniqueMoleculeContainer.add canonS cOne "benzene" false).1 = false ∧
    (UniqueMoleculeContainer.add canonS
        (UniqueMoleculeContainer.add canonS cOne "benzene" false).2
        "benzene" false).2.data.length = cOne.data.length :=
  ⟨rfl, rfl⟩

/-- C8 (witness): the amended double-add property evaluated on a concrete
fresh record. -/
theorem add_twice_fresh_witness :
    (UniqueMoleculeContainer.add canonS cOne "water" false).1 = true ∧
    (UniqueMoleculeContainer.add canonS
        (UniqueMoleculeContainer.add canonS cOne "water" false).2
        "water" false).1 = false ∧
    (UniqueMoleculeContainer.add canonS
        (UniqueMoleculeContainer.add canonS cOne "water" false).2
        "water" false).2.data.length = cOne.data.length + 1 :=
  add_twice_fresh canonS cOne "water" (by decide)

/-- C1: the claim says `get(key, default)` returns the stored record for
a present key.  The source's `get` calls `__getitem__` without a `return`
statement, so a successful lookup falls through and yields Python `None`
even though the record is stored under the key and strict access finds
it; this contradicts the doctest in `get`'s own docstring, which shows
`get` returning the stored molecule. -/
theorem get_returns_none_on_present_key :
    UniqueMoleculeContainer.get cOne (.str "iso:benzene") (some "default") = none ∧
    dictGet? cOne.data "iso:benzene" = some "B-record" ∧
    UniqueMoleculeContainer.getItem cOne (.str "iso:benzene") = .ok "B-record" ∧
    UniqueMoleculeContainer.get cOne (.str "absent") (some "default") = some "default" :=
  ⟨rfl, rfl, rfl, rfl⟩

/-- C2: the claim says `remove_mols` returns `True` when every record in
a list is present.  The source initializes `success = False` and never
assigns `True` inside the loop, so every non-empty list yields `False`.
Here the single removal succeeds (the container is emptied and the
corresponding `remove_mol` returns `True`), yet `remove_mols` returns
`False`. -/
theorem remove_mols_false_despite_success :
    (UniqueMoleculeContainer.remove_mols canonS cOne ["benzene"]).1 = false ∧
    (UniqueMoleculeContainer.remove_mols canonS cOne ["benzene"]).2.data = [] ∧
    (UniqueMoleculeContainer.remove_mol canonS cOne "benzene").1 = true :=
  ⟨rfl, rfl, rfl⟩

/-- A list lookup at a valid position is a `some`. -/
lemma get?_isSome_iff {α : Type} {l : List α} {n : Nat} :
    (l.get? n).isSome ↔ n < l.length := by
  rw [Option.isSome_iff_ne_none, Ne, List.get?_eq_none, Nat.not_le]

/-- Python indexing succeeds exactly on the indices in `[-len, len)`. -/
lemma pyIdx_isSome_iff {α : Type} (l : List α) (i : Int) :
    (pyIdx l i).isSome ↔ (-(l.length : Int) ≤ i ∧ i < (l.length : Int)) := by
  unfold pyIdx
  by_cases hneg : i < 0
  · simp only [hneg, if_true]
    by_cases hge : (0 : Int) ≤ i + l.length
    · rw [if_pos hge, get?_isSome_iff]
      omega
    · rw [if_neg hge]
      simp only [Option.isSome_none, Bool.false_eq_true, false_iff]
      omega
  · simp only [hneg, if_false]
    rw [if_pos (by omega), get?_isSome_iff]
    omega

/-- Python indexing fails on every index outside `[-len, len)`. -/
lemma pyIdx_eq_none {α : Type} (l : List α) (i : Int)
    (h : i < -(l.length : Int) ∨ (l.length : Int) ≤ i) : pyIdx l i = none := by
  rw [← Option.not_isSome_iff_eq_none, pyIdx_isSome_iff]
  omega

/-- What Python indexing returns is an element of the list. -/
lemma pyIdx_mem {α : Type} {l : List α} {i : Int} {a : α}
    (h : pyIdx l i = some a) : a ∈ l := by
  have hex : ∃ n, l.get? n = some a := by
    simp only [pyIdx] at h
    set j : Int := if i < 0 then i + l.length else i with hj
    by_cases h0 : 0 ≤ j
    · rw [if_pos h0] at h
      exact ⟨j.toNat, h⟩
    · rw [if_neg h0] at h
      cases h
  obtain ⟨n, hn⟩ := hex
  exact List.get?_mem hn

/-- A key appearing in a dict's key list has a stored value. -/
lemma dictGet?_isSome_of_mem {M : Type} {d : List (String × M)} {k : String}
    (h : k ∈ dictKeys d) : (dictGet? d k).isSome := by
  induction d with
  | nil => simp [dictKeys] at h
  | cons p rest ih =>
    unfold dictGet?
    by_cases hk : p.1 = k
    · simp [hk]
    · rw [if_neg hk]
      apply ih
      have h' : k = p.1 ∨ k ∈ List.map Prod.fst rest := by
        simpa [dictKeys] using h
      rcases h' with h' | h'
      · exact absurd h'.symm hk
      · exact h'

/-- When every index is valid, the comprehension of `remove_from_indices`
produces exactly the resolved keys in argument order. -/
lemma indexComp_eq_ok {α : Type} (l : List α) (idxs : List Int)
    (h : ∀ i ∈ idxs, (pyIdx l i).isSome) :
    UniqueMoleculeContainer.indexComp l idxs = .ok (idxs.filterMap (pyIdx l)) := by
  induction idxs with
  | nil => rfl
  | cons i rest ih =>
    obtain ⟨a, ha⟩ := Option.isSome_iff_exists.mp (h i (by simp))
    unfold UniqueMoleculeContainer.indexComp
    rw [ha, ih (fun j hj => h j (by simp [hj]))]
    simp [Except.map, List.filterMap_cons, ha]

/-- As soon as one index is invalid, the comprehension raises the plain
`IndexError`. -/
lemma indexComp_eq_error {α : Type} (l : List α) (idxs : List Int)
    (h : ∃ i ∈ idxs, pyIdx l i = none) :
    UniqueMoleculeContainer.indexComp l idxs = .error .idxErrPlain := by
  induction idxs with
  | nil => simp at h
  | cons i rest ih =>
    unfold UniqueMoleculeContainer.indexComp
    cases hpi : pyIdx l i with
    | none => rfl
    | some a =>
      have hrest : ∃ j ∈ rest, pyIdx l j = none := by
        rcases h with ⟨j, hj, hn⟩
        rcases List.mem_cons.mp hj with rfl | hj'
        · rw [hpi] at hn; cases hn
        · exact ⟨j, hj', hn⟩
      rw [ih hrest]
      rfl

/-- One `remove_smiles` call filters the single matching entry out of the
dict (and is a no-op when the key is absent, which the same filter also
expresses). -/
lemma remove_smiles_snd_data {M : Type} (c : UniqueMoleculeContainer M)
    (s : String) :
    (UniqueMoleculeContainer.remove_smiles c s).2.data =
      c.data.filter (fun p => !(p.1 == s)) := by
  unfold UniqueMoleculeContainer.remove_smiles
  by_cases hc : (dictKeys c.data).contains s = true
  · rw [if_pos hc]
    rfl
  · rw [if_neg hc]
    have hs : s ∉ dictKeys c.data := fun hmem => hc (contains_iff.mpr hmem)
    symm
    apply List.filter_eq_self.mpr
    intro p hp
    have hne : p.1 ≠ s := fun he => hs (he ▸ List.mem_map_of_mem Prod.fst hp)
    simp [hne]

/-- Folding `remove_smiles` over a list of keys removes exactly the
entries whose key is in that list. -/
lemma removeFold_data {M : Type} (smis : List String)
    (c : UniqueMoleculeContainer M) :
    ((smis.foldl (fun s smi => (UniqueMoleculeContainer.remove_smiles s smi).2) c).data)
      = c.data.filter (fun p => !(smis.contains p.1)) := by
  induction smis generalizing c with
  | nil => simp
  | cons smi rest ih =>
    rw [List.foldl_cons, ih, remove_smiles_snd_data, List.filter_filter]
    congr 1
    funext p
    rw [List.contains_cons, Bool.not_or, Bool.and_comm]

/-- C5: `remove_from_indices` resolves every index against the key order
at call time before performing any removal.  If some index is invalid,
the `IndexError` is raised by the comprehension and the container is
returned entirely unchanged (entries and seal alike); if all indices are
valid, the resolved keys are returned in the order of the argument list
and exactly the entries with those keys are removed. -/
theorem remove_from_indices_atomic {M : Type} (c : UniqueMoleculeContainer M)
    (idxs : List Int) :
    ((∃ i ∈ idxs, pyIdx (dictKeys c.data) i = none) →
      (UniqueMoleculeContainer.remove_from_indices c idxs).1 = .error .idxErrPlain ∧
      (UniqueMoleculeContainer.remove_from_indices c idxs).2 = c) ∧
    ((∀ i ∈ idxs, (pyIdx (dictKeys c.data) i).isSome) →
      (UniqueMoleculeContainer.remove_from_indices c idxs).1 =
        .ok (idxs.filterMap (pyIdx (dictKeys c.data))) ∧
      (UniqueMoleculeContainer.remove_from_indices c idxs).2.data =
        c.data.filter
          (fun p => !((idxs.filterMap (pyIdx (dictKeys c.data))).contains p.1))) := by
  constructor
  · intro h
    unfold UniqueMoleculeContainer.remove_from_indices
    rw [indexComp_eq_error _ _ h]
    exact ⟨rfl, rfl⟩
  · intro h
    unfold UniqueMoleculeContainer.remove_from_indices
    rw [indexComp_eq_ok _ _ h]
    exact ⟨rfl, removeFold_data _ _⟩

/-- C5 (witness): on a three-record container, `remove_from_indices [5]`
raises and leaves the container untouched, while `remove_from_indices
[0, 2]` returns the first and third key in argument order and removes
exactly those two entries. -/
theorem remove_from_indices_atomic_witness :
    (UniqueMoleculeContainer.remove_from_indices cThree [5]).1 = .error .idxErrPlain ∧
    (UniqueMoleculeContainer.remove_from_indices cThree [5]).2 = cThree ∧
    (UniqueMoleculeContainer.remove_from_indices cThree [0, 2]).1 =
      .ok ["iso:a", "iso:c"] ∧
    (UniqueMoleculeContainer.remove_from_indices cThree [0, 2]).2.data =
      [("iso:b", "b-rec")] := by
  have h1 := (remove_from_indices_atomic cThree [5]).1 ⟨5, by decide, by decide⟩
  have h2 := (remove_from_indices_atomic cThree [0, 2]).2 (by decide)
  refine ⟨h1.1, h1.2, ?_, ?_⟩
  · rw [h2.1]
    rfl
  · rw [h2.2]
    rfl

/-- C6 (amended): positional access (integer indexing, `pop`,
`remove_from_indices`) succeeds for every index in `[-n, n)` — in
particular negative indices resolve from the end instead of raising — and
raises an `IndexError` exactly for indices outside `[-n, n)`.  Of these
errors only `pop`'s, and only on a non-empty container, reports the size
and the offending index; `pop` on an empty container reports the bare
message "Empty container.", and integer indexing and
`remove_from_indices` raise the plain list `IndexError` with neither
range nor index. -/
theorem positional_access_bounds {M : Type} (c : UniqueMoleculeContainer M)
    (i : Int) :
    ((-(c.data.length : Int) ≤ i ∧ i < (c.data.length : Int)) →
      (∃ m, UniqueMoleculeContainer.getItem c (.int i) = .ok m) ∧
      (∃ r, UniqueMoleculeContainer.pop c i = .ok r) ∧
      (∃ l, (UniqueMoleculeContainer.remove_from_indices c [i]).1 = .ok l)) ∧
    ((i < -(c.data.length : Int) ∨ (c.data.length : Int) ≤ i) →
      UniqueMoleculeContainer.getItem c (.int i) = .error .idxErrPlain ∧
      (UniqueMoleculeContainer.remove_from_indices c [i]).1 = .error .idxErrPlain ∧
      UniqueMoleculeContainer.pop c i =
        .error (if c.data.length = 0 then .idxErrEmpty
                else .idxErrRange c.data.length i)) := by
  have hlen : ((dictKeys c.data).length : Int) = (c.data.length : Int) := by
    simp [dictKeys]
  constructor
  · intro h
    have hsome : (pyIdx (dictKeys c.data) i).isSome :=
      (pyIdx_isSome_iff _ _).mpr (by omega)
    obtain ⟨k, hk⟩ := Option.isSome_iff_exists.mp hsome
    obtain ⟨m, hm⟩ := Option.isSome_iff_exists.mp
      (dictGet?_isSome_of_mem (pyIdx_mem hk))
    refine ⟨⟨m, ?_⟩, ⟨(m, { c with data := dictDel c.data k }), ?_⟩, ⟨[k], ?_⟩⟩
    · simp only [UniqueMoleculeContainer.getItem, hk, hm]
    · simp only [UniqueMoleculeContainer.pop, hk, hm]
    · simp only [UniqueMoleculeContainer.remove_from_indices,
        UniqueMoleculeContainer.indexComp, hk, Except.map]
  · intro h
    have hnone : pyIdx (dictKeys c.data) i = none :=
      pyIdx_eq_none _ _ (by omega)
    refine ⟨?_, ?_, ?_⟩
    · simp only [UniqueMoleculeContainer.getItem, hnone]
    · simp only [UniqueMoleculeContainer.remove_from_indices,
        UniqueMoleculeContainer.indexComp, hnone]
    · simp only [UniqueMoleculeContainer.pop, hnone]
      split <;> rfl

/-- C6 (witness): on the three-record container, index 1 is accessible by
all three positional operations, while index 5 raises: the plain
`IndexError` for indexing and batch removal, and the size-and-index
message for `pop`. -/
theorem positional_access_bounds_witness :
    (∃ m, UniqueMoleculeContainer.getItem cThree (.int 1) = .ok m) ∧
    UniqueMoleculeContainer.getItem cThree (.int 5) = .error .idxErrPlain ∧
    UniqueMoleculeContainer.pop cThree 5 = .error (.idxErrRange 3 5) := by
  have hv := (positional_access_bounds cThree 1).1 (by decide)
  have hi := (positional_access_bounds cThree 5).2 (Or.inr (by decide))
  exact ⟨hv.1, hi.1, hi.2.2⟩

/-- C6 (counterexample): the claim demands an `IndexKind` error for every
index outside `[0, n)`, but on a one-record container the index `-1` is
served without any error (Python's from-the-end indexing); and the claim
demands that `pop` on an empty container carry the size and the bad
index, but the source raises the fixed message "Empty container." with
neither. -/
theorem negative_index_not_an_error :
    UniqueMoleculeContainer.getItem cOne (.int (-1)) = .ok "B-record" ∧
    UniqueMoleculeContainer.pop (UniqueMoleculeContainer.newEmpty String true false) 0
      = .error .idxErrEmpty :=
  ⟨rfl, rfl⟩

/-- Folding removal attempts over the empty container never changes it. -/
lemma rmFold_newEmpty {M : Type} (mol2smi : M → Bool → String)
    (ms : List M) (b : Bool) :
    ((ms.foldl (UniqueMoleculeContainer.rmStep mol2smi)
        (b, UniqueMoleculeContainer.newEmpty M true false)).2) =
      UniqueMoleculeContainer.newEmpty M true false := by
  induction ms generalizing b with
  | nil => rfl
  | cons m rest ih => exact ih false

/-- On the sealed empty container every removal fails and every observer
operation is the identity on the state. -/
lemma applyObs_newEmpty {M : Type} (mol2smi : M → Bool → String)
    (op : ObsOp M) :
    applyObs mol2smi (UniqueMoleculeContainer.newEmpty M true false) op =
      UniqueMoleculeContainer.newEmpty M true false := by
  cases op with
  | getOp k d => rfl
  | memOp m => rfl
  | rmSmilesOp s => rfl
  | rmMolOp m => rfl
  | rmMolsOp ms =>
    cases ms with
    | nil => rfl
    | cons m rest =>
      show ((m :: rest).foldl (UniqueMoleculeContainer.rmStep mol2smi)
        (false, UniqueMoleculeContainer.newEmpty M true false)).2 =
        UniqueMoleculeContainer.newEmpty M true false
      exact rmFold_newEmpty mol2smi (m :: rest) false

/-- A sequence of observer operations leaves the sealed empty container
exactly as constructed. -/
lemma applyObsList_newEmpty {M : Type} (mol2smi : M → Bool → String)
    (ops : List (ObsOp M)) :
    applyObsList mol2smi ops (UniqueMoleculeContainer.newEmpty M true false) =
      UniqueMoleculeContainer.newEmpty M true false := by
  induction ops with
  | nil => rfl
  | cons op rest ih =>
    unfold applyObsList at ih ⊢
    rw [List.foldl_cons, applyObs_newEmpty]
    exact ih

/-- C7: a freshly constructed empty container with `sealed=True` is left
entirely unchanged (seal included) by any sequence of `get` calls,
membership tests and removal attempts — on the empty container every
removal fails; the first `add` on it succeeds and breaks the seal, and
any successful `remove_smiles` on any container breaks the seal. -/
theorem seal_semantics {M : Type} (mol2smi : M → Bool → String) :
    (∀ ops : List (ObsOp M),
      applyObsList mol2smi ops (UniqueMoleculeContainer.newEmpty M true false) =
        UniqueMoleculeContainer.newEmpty M true false) ∧
    (∀ mol : M,
      (UniqueMoleculeContainer.add mol2smi
          (UniqueMoleculeContainer.newEmpty M true false) mol false).1 = true ∧
      (UniqueMoleculeContainer.add mol2smi
          (UniqueMoleculeContainer.newEmpty M true false) mol false).2.sealed = false) ∧
    (∀ (c : UniqueMoleculeContainer M) (s : String),
      (UniqueMoleculeContainer.remove_smiles c s).1 = true →
      (UniqueMoleculeContainer.remove_smiles c s).2.sealed = false) := by
  refine ⟨applyObsList_newEmpty mol2smi, fun mol => ⟨rfl, rfl⟩, fun c s h => ?_⟩
  unfold UniqueMoleculeContainer.remove_smiles at h ⊢
  by_cases hc : (dictKeys c.data).contains s = true
  · rw [if_pos hc]
  · rw [if_neg hc] at h
    cases h

/-- C7 (witness): a concrete observer sequence on the sealed empty
container, a concrete first `add`, and a concrete successful removal. -/
theorem seal_semantics_witness :
    applyObsList canonS
        [ObsOp.getOp (.str "iso:x") none, ObsOp.memOp "x",
         ObsOp.rmSmilesOp "iso:x", ObsOp.rmMolOp "x", ObsOp.rmMolsOp ["x", "y"]]
        (UniqueMoleculeContainer.newEmpty String true false) =
      UniqueMoleculeContainer.newEmpty String true false ∧
    (UniqueMoleculeContainer.add canonS
        (UniqueMoleculeContainer.newEmpty String true false) "benzene" false).2.sealed
      = false ∧
    (UniqueMoleculeContainer.remove_smiles cOne "iso:benzene").2.sealed = false :=
  ⟨(seal_semantics canonS).1 _, ((seal_semantics canonS).2.1 "benzene").2,
   (seal_semantics canonS).2.2 cOne "iso:benzene" rfl⟩

/-- C9: two containers compare equal precisely when their key lists,
taken as unordered finite sets, coincide — insertion order and the
stored record values are irrelevant to `__eq__`. -/
theorem eq_iff_key_sets {M : Type} (a b : UniqueMoleculeContainer M) :
    UniqueMoleculeContainer.eqc a b = true ↔
      (dictKeys a.data).toFinset = (dictKeys b.data).toFinset := by
  unfold UniqueMoleculeContainer.eqc
  rw [Bool.and_eq_true, List.all_eq_true, List.all_eq_true]
  constructor
  · rintro ⟨h1, h2⟩
    ext k
    simp only [List.mem_toFinset]
    exact ⟨fun hk => contains_iff.mp (h1 k hk), fun hk => contains_iff.mp (h2 k hk)⟩
  · intro h
    constructor
    · intro k hk
      apply contains_iff.mpr
      exact List.mem_toFinset.mp (h ▸ List.mem_toFinset.mpr hk)
    · intro k hk
      apply contains_iff.mpr
      exact List.mem_toFinset.mp (h.symm ▸ List.mem_toFinset.mpr hk)

/-- C9 (witness): the same three keys inserted in different orders with
different record values (and different seal states) compare equal. -/
theorem eq_iff_key_sets_witness :
    UniqueMoleculeContainer.eqc cOrderA cOrderB = true :=
  (eq_iff_key_sets cOrderA cOrderB).mpr (by decide)

/-- `__next__` always stores the incremented counter back on the
container, whatever it yields. -/
lemma next_snd {M : Type} (c : UniqueMoleculeContainer M) :
    (UniqueMoleculeContainer.next c).2 = { c with idx := c.idx + 1 } := by
  simp only [UniqueMoleculeContainer.next]
  split
  · rfl
  · split <;> rfl

/-- A `next` right after `iterInit` yields the first record (or stops on
an empty container). -/
lemma next_of_iterInit {M : Type} (c : UniqueMoleculeContainer M) :
    (UniqueMoleculeContainer.next (UniqueMoleculeContainer.iterInit c)).1 =
      c.data.head?.map Prod.snd := by
  cases hd : c.data with
  | nil =>
    simp [UniqueMoleculeContainer.next, UniqueMoleculeContainer.iterInit, hd]
  | cons p rest =>
    simp [UniqueMoleculeContainer.next, UniqueMoleculeContainer.iterInit, hd,
      pyIdx, dictKeys, dictGet?]
    rw [if_neg (by omega)]

/-- C10: requesting an iterator resets the single position counter stored
on the container itself (whatever iteration was in progress), and the
following `next` yields the first record again; in particular after
consuming one record of an outer iteration, requesting a second iterator
over the same container and stepping it yields the first record once
more, so interleaved iterations over one container are not independent. -/
theorem iter_restart_resets_position {M : Type}
    (c : UniqueMoleculeContainer M) :
    (UniqueMoleculeContainer.iterInit c).idx = -1 ∧
    (UniqueMoleculeContainer.next (UniqueMoleculeContainer.iterInit c)).1 =
      c.data.head?.map Prod.snd ∧
    (UniqueMoleculeContainer.next (UniqueMoleculeContainer.iterInit
        (UniqueMoleculeContainer.next (UniqueMoleculeContainer.iterInit c)).2)).1 =
      c.data.head?.map Prod.snd := by
  refine ⟨rfl, next_of_iterInit c, ?_⟩
  rw [next_snd]
  exact next_of_iterInit c

end Scrubber
